import Mathlib

/-!
Verification of the detection wrapper script (detect_wrapper.py).

The script invokes an external detector over a directory of capture images,
then routes files by detection outcome:
- if the detector's label directory is absent or holds no label files, it
  purges pending images, videos, stray labels and annotated artifacts and
  exits with code 0;
- otherwise, for each label file it parses the stem against the pattern
  (\d{2}-\d{2}-\d{4})_(\d{2})\.(\d{2})\.(\d{2})_([a-zA-Z]+), moves the
  original image (sending a push notification on success), moves video clips
  of the same location whose timestamp lies within 40 seconds, looks up the
  annotated image, and finally deletes the label file.

The embedding models directories as lists of file names, the subprocess
return code and the notification outcome as parameters, and the run as a
function from this state to an exit code, a trace of effects and a final
state.  An uncaught Python exception (the label-stem strptime is not wrapped
in any try/except) is modelled as the `Except.error` case, which terminates
the interpreter with status 1.
-/

set_option autoImplicit false

namespace DetectWrapper

/-! ### Configuration constants (detect_wrapper.py lines 9-18, 103-109) -/

def image_dir : String := "/tmp/motion/image"

def video_dir : String := "/tmp/motion"

def output_dir : String := "/home/motion/files"

def tolerance_seconds : Nat := 40

def pushover_token : String := "mytoken"

def pushover_user : String := "myuser"

def pushover_message : String := "Motion!"

def pushover_url : String := "https://api.pushover.net/1/messages.json"

/-! ### Filename stem and glob helpers -/

/-- Chars before the last dot of a list, `none` when there is no dot. -/
def stemChars : List Char → Option (List Char)
  | [] => none
  | c :: cs =>
    match stemChars cs with
    | some r => some (c :: r)
    | none => if c = '.' then some [] else none

/-- Model of `pathlib.Path(name).stem`: the final path component without its
last suffix; a leading dot does not start a suffix. -/
def stemOf (n : String) : String :=
  match n.data with
  | [] => ""
  | c :: cs => String.mk (c :: ((stemChars cs).getD cs))

/-- Does the name end with the given suffix of characters? -/
def endsWithChars (name suf : List Char) : Bool :=
  suf == name.drop (name.length - suf.length)

/-- Model of `dir.glob("*.<ext>")`: files of the directory whose name ends in
the extension (directory listings carry no order guarantee; the state's list
order stands for the enumeration order). -/
def globExt (ext : String) (files : List String) : List String :=
  files.filter (fun n => endsWithChars n.data ext.data)

/-- Model of `dir.glob("*.*")` (the annotated-artifact cleanup): files whose
name contains a dot. -/
def globDotAny (files : List String) : List String :=
  files.filter (fun n => n.data.any (fun c => c == '.'))

/-! ### The filename pattern (line 69)

`filename_pattern = r"(\d{2}-\d{2}-\d{4})_(\d{2})\.(\d{2})\.(\d{2})_([a-zA-Z]+)"`
applied with `re.match`, i.e. anchored at the start only: any trailing
characters after the match are ignored.  Group 1 of the Python regex is the
whole `MM-DD-YYYY` block; the embedding stores its three digit runs
separately (`mm`, `dd`, `yyyy`), so group 1 is `mm ++ "-" ++ dd ++ "-" ++ yyyy`. -/

structure StemGroups where
  mm : List Char
  dd : List Char
  yyyy : List Char
  hh : List Char
  mi : List Char
  ss : List Char
  loc : List Char
  rest : List Char
  deriving DecidableEq, Repr

/-- Take exactly `n` decimal digits from the front (the `\d{n}` atom). -/
def takeDigits : Nat → List Char → Option (List Char × List Char)
  | 0, r => some ([], r)
  | _ + 1, [] => none
  | n + 1, c :: cs =>
    if c.isDigit then
      match takeDigits n cs with
      | none => none
      | some (ds, r) => some (c :: ds, r)
    else none

/-- Consume one expected literal character. -/
def expectChar (ch : Char) : List Char → Option (List Char)
  | [] => none
  | c :: cs => if c = ch then some cs else none

/-- Model of `re.match(filename_pattern, s)`: a prefix match of
`\d{2}-\d{2}-\d{4}_\d{2}\.\d{2}\.\d{2}_[a-zA-Z]+`; the trailing `[a-zA-Z]+`
is greedy with nothing after it, so it captures the maximal run of ASCII
letters, and whatever follows is left unmatched in `rest`. -/
def reMatchStem (s : List Char) : Option StemGroups :=
  match takeDigits 2 s with
  | none => none
  | some (mm, r1) =>
  match expectChar '-' r1 with
  | none => none
  | some r2 =>
  match takeDigits 2 r2 with
  | none => none
  | some (dd, r3) =>
  match expectChar '-' r3 with
  | none => none
  | some r4 =>
  match takeDigits 4 r4 with
  | none => none
  | some (yyyy, r5) =>
  match expectChar '_' r5 with
  | none => none
  | some r6 =>
  match takeDigits 2 r6 with
  | none => none
  | some (hh, r7) =>
  match expectChar '.' r7 with
  | none => none
  | some r8 =>
  match takeDigits 2 r8 with
  | none => none
  | some (mi, r9) =>
  match expectChar '.' r9 with
  | none => none
  | some r10 =>
  match takeDigits 2 r10 with
  | none => none
  | some (ss, r11) =>
  match expectChar '_' r11 with
  | none => none
  | some r12 =>
    let loc := r12.takeWhile Char.isAlpha
    if loc.isEmpty then none
    else some ⟨mm, dd, yyyy, hh, mi, ss, loc, r12.dropWhile Char.isAlpha⟩

/-! ### strptime / datetime model -/

/-- Numeric value of a run of decimal digit characters (as Python `int`). -/
def natOfDigits (l : List Char) : Nat :=
  l.foldl (fun a c => a * 10 + (c.toNat - 48)) 0

structure Timestamp where
  month : Nat
  day : Nat
  year : Nat
  hour : Nat
  minute : Nat
  second : Nat
  deriving DecidableEq, Repr

def isLeapYear (y : Nat) : Bool :=
  (y % 4 == 0 && y % 100 != 0) || y % 400 == 0

def daysInMonth (y m : Nat) : Nat :=
  if m = 2 then (if isLeapYear y then 29 else 28)
  else if m = 4 ∨ m = 6 ∨ m = 9 ∨ m = 11 then 30
  else 31

/-- Model of `datetime.strptime(f"{date} {hour}:{minute}:{second}",
"%m-%d-%Y %H:%M:%S")` on the captured groups: it succeeds exactly when the
digit runs form a valid proleptic-Gregorian datetime (month 1-12, day within
the month, year 1-9999, hour 0-23, minute 0-59, second 0-59); every other
combination raises `ValueError` (either the strptime format regex rejects it
or the `datetime` constructor does), modelled as `none`. -/
def strptimeFields (g : StemGroups) : Option Timestamp :=
  let mo := natOfDigits g.mm
  let d := natOfDigits g.dd
  let y := natOfDigits g.yyyy
  let h := natOfDigits g.hh
  let mi := natOfDigits g.mi
  let s := natOfDigits g.ss
  if 1 ≤ mo ∧ mo ≤ 12 ∧ 1 ≤ d ∧ d ≤ daysInMonth y mo ∧ 1 ≤ y ∧ y ≤ 9999
      ∧ h ≤ 23 ∧ mi ≤ 59 ∧ s ≤ 59 then
    some ⟨mo, d, y, h, mi, s⟩
  else none

/-- Days of the proleptic Gregorian calendar strictly before year `y`. -/
def daysBeforeYear (y : Nat) : Nat :=
  let n := y - 1
  n * 365 + n / 4 - n / 100 + n / 400

/-- Days of year `y` strictly before month `m`. -/
def daysBeforeMonth (y : Nat) : Nat → Nat
  | 0 => 0
  | m + 1 => if m = 0 then 0 else daysBeforeMonth y m + daysInMonth y m

/-- Seconds from the calendar origin, so that `datetime` subtraction followed
by `total_seconds()` (exact for these magnitudes) is the difference of this
function's values. -/
def toSecs (t : Timestamp) : Nat :=
  (daysBeforeYear t.year + daysBeforeMonth t.year t.month + (t.day - 1)) * 86400
    + t.hour * 3600 + t.minute * 60 + t.second

/-- `abs((video_time - image_time).total_seconds())` in whole seconds. -/
def timeDiffSec (a b : Timestamp) : Nat :=
  ((toSecs a : Int) - (toSecs b : Int)).natAbs

/-- Python `str.lower()` on ASCII letters (the captured group is `[a-zA-Z]+`). -/
def lowerStr (l : List Char) : List Char :=
  l.map Char.toLower

/-! ### Filesystem state and effect trace -/

/-- The directories the script reads and mutates, as lists of file names.
`labelsDirExists` models `labels_dir.exists()`; when it is false the
directory has no entries, which `labelsOf` enforces. -/
structure FSState where
  imageFiles : List String
  videoFiles : List String
  labelsDirExists : Bool
  labelFiles : List String
  annotatedFiles : List String
  outputFiles : List String
  deriving DecidableEq, Repr

/-- Contents of the labels directory (`[]` when it does not exist). -/
def labelsOf (s : FSState) : List String :=
  if s.labelsDirExists then s.labelFiles else []

/-- Observable effects of a run, in order. -/
inductive Event where
  | deletedImage (name : String)
  | deletedVideo (name : String)
  | deletedLabel (name : String)
  | deletedAnnotated (name : String)
  | movedImage (name : String)
  | notified (token user message attachment url : String)
  | notifyFailed
  | loggedImageMissing (base : String)
  | movedVideo (name : String)
  | loggedNoVideos (base : String)
  | annotatedRetained (name : String)
  | loggedAnnotatedMissing (base : String)
  deriving DecidableEq, Repr

/-! ### Step 2a: the empty-result cleanup branch (lines 47-66) -/

/-- Lines 50-64: delete every `*.webp` in the image directory, every `*.mkv`
in the video directory, every `*.txt` in the labels directory and every
`*.*` entry of the detector output directory, in that order. -/
def cleanupNoDetections (s : FSState) : List Event × FSState :=
  let images := globExt ".webp" s.imageFiles
  let videos := globExt ".mkv" s.videoFiles
  let labels := globExt ".txt" (labelsOf s)
  let annotated := globDotAny s.annotatedFiles
  (images.map Event.deletedImage ++ videos.map Event.deletedVideo
      ++ labels.map Event.deletedLabel ++ annotated.map Event.deletedAnnotated,
   { s with
      imageFiles := s.imageFiles.filter (fun n => !(endsWithChars n.data ".webp".data))
      videoFiles := s.videoFiles.filter (fun n => !(endsWithChars n.data ".mkv".data))
      labelFiles := (labelsOf s).filter (fun n => !(endsWithChars n.data ".txt".data))
      annotatedFiles := s.annotatedFiles.filter (fun n => !(n.data.any (fun c => c == '.'))) })

/-! ### Per-label processing (lines 72-170) -/

/-- Lines 93-116: move the original capture image (stem plus `.webp`) to the
output directory when it exists and send the Pushover notification (`curl`,
`check=True`; a `CalledProcessError`, modelled by `notifyFails` on the
attachment path, is caught and logged); otherwise log its absence. -/
def imageStep (notifyFails : String → Bool) (s : FSState) (base_name : String) :
    List Event × FSState :=
  let original_image := base_name ++ ".webp"
  if original_image ∈ s.imageFiles then
    let dest_image_path := output_dir ++ "/" ++ original_image
    let s2 : FSState :=
      { s with
          imageFiles := s.imageFiles.erase original_image
          outputFiles := s.outputFiles ++ [original_image] }
    if notifyFails dest_image_path then
      ([Event.movedImage original_image, Event.notifyFailed], s2)
    else
      ([Event.movedImage original_image,
        Event.notified pushover_token pushover_user pushover_message
          dest_image_path pushover_url], s2)
  else
    ([Event.loggedImageMissing base_name], s)

/-- Lines 119-136: the matching-videos scan.  A `*.mkv` file of the video
directory is kept when its stem matches the filename pattern, its location
tag equals the image's case-insensitively, its timestamp parses (the
`ValueError` of an invalid date is caught by `continue`) and the absolute
time difference is at most `tolerance_seconds`. -/
def videoMatches (image_time : Timestamp) (location : List Char) (v : String) : Bool :=
  match reMatchStem (stemOf v).data with
  | none => false
  | some g =>
    if lowerStr g.loc = lowerStr location then
      match strptimeFields g with
      | none => false
      | some video_time => timeDiffSec video_time image_time ≤ tolerance_seconds
    else false

def matchingVideos (image_time : Timestamp) (location : List Char)
    (videoFiles : List String) : List String :=
  (globExt ".mkv" videoFiles).filter (videoMatches image_time location)

/-- Lines 138-145: move every matching video to the output directory, or log
that none matched. -/
def videoStep (image_time : Timestamp) (location : List Char) (s : FSState)
    (base_name : String) : List Event × FSState :=
  let mv := matchingVideos image_time location s.videoFiles
  if mv = [] then ([Event.loggedNoVideos base_name], s)
  else
    (mv.map Event.movedVideo,
     { s with
        videoFiles := s.videoFiles.filter (fun v => !(decide (v ∈ mv)))
        outputFiles := s.outputFiles ++ mv })

/-- Lines 147-157: look up the annotated counterpart by trying the extensions
webp, jpg, jpeg, png in that order; the first existing candidate is retained
in place (the move is commented out in the source), none is deleted. -/
def annotatedStep (s : FSState) (base_name : String) : List Event :=
  let annotated_candidates :=
    [base_name ++ ".webp", base_name ++ ".jpg", base_name ++ ".jpeg", base_name ++ ".png"]
  let annotated_files := annotated_candidates.filter (fun f => decide (f ∈ s.annotatedFiles))
  match annotated_files with
  | f :: _ => [Event.annotatedRetained f]
  | [] => [Event.loggedAnnotatedMissing base_name]

/-- One iteration of the `for label_file in labels_dir.glob("*.txt")` loop
(lines 72-170).  A stem that fails the pattern is deleted and skipped
(lines 76-81).  The strptime of a matching stem (line 84) is NOT guarded by
any try/except: an invalid date raises an uncaught `ValueError`, modelled as
`none`, which aborts the whole run.  Otherwise the image step, the video
step and the annotated lookup run, and the label file is deleted last
(line 169). -/
def processLabel (notifyFails : String → Bool) (s : FSState) (labelName : String) :
    Option (List Event × FSState) :=
  let base_name := stemOf labelName
  match reMatchStem base_name.data with
  | none =>
      some ([Event.deletedLabel labelName],
            { s with labelFiles := s.labelFiles.erase labelName })
  | some g =>
      match strptimeFields g with
      | none => none
      | some image_time =>
          let r1 := imageStep notifyFails s base_name
          let r2 := videoStep image_time g.loc r1.2 base_name
          let ev3 := annotatedStep r2.2 base_name
          some (r1.1 ++ (r2.1 ++ (ev3 ++ [Event.deletedLabel labelName])),
                { r2.2 with labelFiles := r2.2.labelFiles.erase labelName })

/-- The label loop over the snapshot of `labels_dir.glob("*.txt")`.  An
uncaught `ValueError` carries out the events so far and the state at the
crash. -/
def processLabels (notifyFails : String → Bool) :
    List String → FSState → List Event →
    Except (List Event × FSState) (List Event × FSState)
  | [], s, acc => .ok (acc, s)
  | l :: ls, s, acc =>
    match processLabel notifyFails s l with
    | none => .error (acc, s)
    | some (ev, s2) => processLabels notifyFails ls s2 (acc ++ ev)

/-! ### The whole run -/

/-- The script, from the detector's return code on.  `returncode ≠ 0` takes
the `exit(1)` branch (lines 39-41) with no routing or cleanup; an absent or
`.txt`-empty labels directory takes the cleanup branch and `exit(0)`
(lines 47-66); otherwise every label file is processed and the script falls
off the end (exit code 0), unless an uncaught `ValueError` aborts it
(`Except.error`). -/
def runWrapper (returncode : Int) (notifyFails : String → Bool) (s : FSState) :
    Except (List Event × FSState) (Nat × List Event × FSState) :=
  if returncode ≠ 0 then .ok (1, [], s)
  else if !s.labelsDirExists || (globExt ".txt" (labelsOf s)).isEmpty then
    let r := cleanupNoDetections s
    .ok (0, r.1, r.2)
  else
    match processLabels notifyFails (globExt ".txt" (labelsOf s)) s [] with
    | .error e => .error e
    | .ok (ev, s2) => .ok (0, ev, s2)

/-- Exit status of the operating-system process: the code passed to `exit`
(or 0 when the script falls off the end) on normal termination; the Python
interpreter exits with status 1 on an uncaught exception. -/
def exitStatus (r : Except (List Event × FSState) (Nat × List Event × FSState)) : Nat :=
  match r with
  | .error _ => 1
  | .ok (c, _, _) => c

/-! ### Spec-side reformatting (for the round-trip property) -/

/-- Two-digit zero-padded rendering of `n < 100`. -/
def pad2 (n : Nat) : List Char :=
  [Nat.digitChar (n / 10), Nat.digitChar (n % 10)]

/-- Four-digit zero-padded rendering of `n < 10000`. -/
def pad4 (n : Nat) : List Char :=
  [Nat.digitChar (n / 1000), Nat.digitChar (n / 100 % 10),
   Nat.digitChar (n / 10 % 10), Nat.digitChar (n % 10)]

/-- Modelled from the spec: the script itself never formats a filename, so
the Capture Filename rendering `MM-DD-YYYY_HH.MM.SS_Location` of section 3
of the design document is defined here from the spec's words, to state the
parse/format round trip. -/
def formatStem (t : Timestamp) (loc : List Char) : List Char :=
  pad2 t.month ++ '-' :: (pad2 t.day ++ '-' :: (pad4 t.year ++ '_' ::
    (pad2 t.hour ++ '.' :: (pad2 t.minute ++ '.' :: (pad2 t.second ++ '_' :: loc)))))

end DetectWrapper

namespace DetectWrapper

/-- A label name is safe when processing it cannot raise the uncaught
`ValueError` of line 84: its stem either fails the pattern or encodes a
valid timestamp. -/
def safeLabel (l : String) : Bool :=
  match reMatchStem (stemOf l).data with
  | none => true
  | some g => (strptimeFields g).isSome

/-! ### Digit-rendering lemmas -/

lemma digitChar_isDigit (k : Nat) (h : k ≤ 9) : (Nat.digitChar k).isDigit = true := by
  interval_cases k <;> decide

lemma digitChar_toNat (k : Nat) (h : k ≤ 9) : (Nat.digitChar k).toNat = k + 48 := by
  interval_cases k <;> decide

lemma natOfDigits_pad2 (n : Nat) (h : n < 100) : natOfDigits (pad2 n) = n := by
  have h1 : (Nat.digitChar (n / 10)).toNat = n / 10 + 48 := digitChar_toNat _ (by omega)
  have h2 : (Nat.digitChar (n % 10)).toNat = n % 10 + 48 := digitChar_toNat _ (by omega)
  simp [natOfDigits, pad2, h1, h2]
  omega

lemma natOfDigits_pad4 (n : Nat) (h : n < 10000) : natOfDigits (pad4 n) = n := by
  have h1 : (Nat.digitChar (n / 1000)).toNat = n / 1000 + 48 := digitChar_toNat _ (by omega)
  have h2 : (Nat.digitChar (n / 100 % 10)).toNat = n / 100 % 10 + 48 := digitChar_toNat _ (by omega)
  have h3 : (Nat.digitChar (n / 10 % 10)).toNat = n / 10 % 10 + 48 := digitChar_toNat _ (by omega)
  have h4 : (Nat.digitChar (n % 10)).toNat = n % 10 + 48 := digitChar_toNat _ (by omega)
  simp [natOfDigits, pad4, h1, h2, h3, h4]
  omega

lemma takeDigits_two (a b : Char) (r : List Char)
    (ha : a.isDigit = true) (hb : b.isDigit = true) :
    takeDigits 2 (a :: b :: r) = some ([a, b], r) := by
  simp [takeDigits, ha, hb]

lemma takeDigits_four (a b c d : Char) (r : List Char)
    (ha : a.isDigit = true) (hb : b.isDigit = true)
    (hc : c.isDigit = true) (hd : d.isDigit = true) :
    takeDigits 4 (a :: b :: c :: d :: r) = some ([a, b, c, d], r) := by
  simp [takeDigits, ha, hb, hc, hd]

lemma expectChar_cons (ch : Char) (r : List Char) : expectChar ch (ch :: r) = some r := by
  simp [expectChar]

lemma takeWhile_append_all (p : Char → Bool) :
    ∀ (l r : List Char), (∀ c ∈ l, p c = true) → (∀ c, r.head? = some c → p c = false) →
      (l ++ r).takeWhile p = l ∧ (l ++ r).dropWhile p = r
  | [], r, _, hr => by
      cases r with
      | nil => simp
      | cons c cs => simp [List.takeWhile, List.dropWhile, hr c rfl]
  | a :: l, r, hl, hr => by
      have ha := hl a (by simp)
      have ih := takeWhile_append_all p l r (fun c hc => hl c (by simp [hc])) hr
      simp [List.takeWhile, List.dropWhile, ha, ih.1, ih.2]

end DetectWrapper

namespace DetectWrapper

lemma formatStem_append (t : Timestamp) (loc suffix : List Char) :
    formatStem t loc ++ suffix = formatStem t (loc ++ suffix) := by
  simp [formatStem, pad2, pad4, List.append_assoc]

lemma reMatchStem_formatStem (t : Timestamp) (r : List Char)
    (h1 : t.month < 100) (h2 : t.day < 100) (h3 : t.year < 10000)
    (h4 : t.hour < 100) (h5 : t.minute < 100) (h6 : t.second < 100) :
    reMatchStem (formatStem t r) =
      if (r.takeWhile Char.isAlpha).isEmpty then none
      else some ⟨pad2 t.month, pad2 t.day, pad4 t.year, pad2 t.hour, pad2 t.minute,
                 pad2 t.second, r.takeWhile Char.isAlpha, r.dropWhile Char.isAlpha⟩ := by
  have dmo1 : (Nat.digitChar (t.month / 10)).isDigit = true := digitChar_isDigit _ (by omega)
  have dmo2 : (Nat.digitChar (t.month % 10)).isDigit = true := digitChar_isDigit _ (by omega)
  have dd1 : (Nat.digitChar (t.day / 10)).isDigit = true := digitChar_isDigit _ (by omega)
  have dd2 : (Nat.digitChar (t.day % 10)).isDigit = true := digitChar_isDigit _ (by omega)
  have dy1 : (Nat.digitChar (t.year / 1000)).isDigit = true := digitChar_isDigit _ (by omega)
  have dy2 : (Nat.digitChar (t.year / 100 % 10)).isDigit = true := digitChar_isDigit _ (by omega)
  have dy3 : (Nat.digitChar (t.year / 10 % 10)).isDigit = true := digitChar_isDigit _ (by omega)
  have dy4 : (Nat.digitChar (t.year % 10)).isDigit = true := digitChar_isDigit _ (by omega)
  have dh1 : (Nat.digitChar (t.hour / 10)).isDigit = true := digitChar_isDigit _ (by omega)
  have dh2 : (Nat.digitChar (t.hour % 10)).isDigit = true := digitChar_isDigit _ (by omega)
  have dmi1 : (Nat.digitChar (t.minute / 10)).isDigit = true := digitChar_isDigit _ (by omega)
  have dmi2 : (Nat.digitChar (t.minute % 10)).isDigit = true := digitChar_isDigit _ (by omega)
  have ds1 : (Nat.digitChar (t.second / 10)).isDigit = true := digitChar_isDigit _ (by omega)
  have ds2 : (Nat.digitChar (t.second % 10)).isDigit = true := digitChar_isDigit _ (by omega)
  simp only [formatStem, pad2, pad4, List.cons_append, List.nil_append]
  rw [reMatchStem]
  rw [takeDigits_two _ _ _ dmo1 dmo2]
  simp only [expectChar_cons]
  rw [takeDigits_two _ _ _ dd1 dd2]
  simp only [expectChar_cons]
  rw [takeDigits_four _ _ _ _ _ dy1 dy2 dy3 dy4]
  simp only [expectChar_cons]
  rw [takeDigits_two _ _ _ dh1 dh2]
  simp only [expectChar_cons]
  rw [takeDigits_two _ _ _ dmi1 dmi2]
  simp only [expectChar_cons]
  rw [takeDigits_two _ _ _ ds1 ds2]
  simp only [expectChar_cons]

lemma daysInMonth_le (y m : Nat) : daysInMonth y m ≤ 31 := by
  unfold daysInMonth
  split
  · split <;> omega
  · split <;> omega

lemma strptimeFields_pads (t : Timestamp) (loc rest : List Char)
    (hm1 : 1 ≤ t.month) (hm2 : t.month ≤ 12)
    (hd1 : 1 ≤ t.day) (hd2 : t.day ≤ daysInMonth t.year t.month)
    (hy1 : 1 ≤ t.year) (hy2 : t.year ≤ 9999)
    (hh : t.hour ≤ 23) (hmi : t.minute ≤ 59) (hs : t.second ≤ 59) :
    strptimeFields ⟨pad2 t.month, pad2 t.day, pad4 t.year, pad2 t.hour,
                    pad2 t.minute, pad2 t.second, loc, rest⟩ = some t := by
  have hdm := daysInMonth_le t.year t.month
  simp only [strptimeFields, natOfDigits_pad2 t.month (by omega),
    natOfDigits_pad2 t.day (by omega), natOfDigits_pad4 t.year (by omega),
    natOfDigits_pad2 t.hour (by omega), natOfDigits_pad2 t.minute (by omega),
    natOfDigits_pad2 t.second (by omega)]
  rw [if_pos ⟨hm1, hm2, hd1, hd2, hy1, hy2, hh, hmi, hs⟩]

end DetectWrapper

namespace DetectWrapper

lemma takeWhile_all (p : Char → Bool) (l : List Char) (hl : ∀ c ∈ l, p c = true) :
    l.takeWhile p = l ∧ l.dropWhile p = l.drop l.length := by
  have := takeWhile_append_all p l [] hl (fun c hc => by simp at hc)
  simpa using this

/-- Formatting a valid timestamp and a nonempty ASCII-alphabetic location as
`MM-DD-YYYY_HH.MM.SS_Location` and parsing the result with the script's
pattern and strptime recovers exactly the same fields, with nothing left
over. -/
lemma format_fields_roundtrip (t : Timestamp) (loc : List Char)
    (hm1 : 1 ≤ t.month) (hm2 : t.month ≤ 12)
    (hd1 : 1 ≤ t.day) (hd2 : t.day ≤ daysInMonth t.year t.month)
    (hy1 : 1 ≤ t.year) (hy2 : t.year ≤ 9999)
    (hh : t.hour ≤ 23) (hmi : t.minute ≤ 59) (hs : t.second ≤ 59)
    (hloc : loc ≠ []) (halpha : ∀ c ∈ loc, c.isAlpha = true) :
    ∃ g, reMatchStem (formatStem t loc) = some g ∧
      strptimeFields g = some t ∧ g.loc = loc ∧ g.rest = [] := by
  have hdm := daysInMonth_le t.year t.month
  have htw := takeWhile_append_all Char.isAlpha loc [] halpha (fun c hc => by simp at hc)
  simp only [List.append_nil] at htw
  refine ⟨⟨pad2 t.month, pad2 t.day, pad4 t.year, pad2 t.hour, pad2 t.minute,
           pad2 t.second, loc, []⟩, ?_, ?_, rfl, rfl⟩
  · rw [reMatchStem_formatStem t loc (by omega) (by omega) (by omega) (by omega)
      (by omega) (by omega)]
    rw [htw.1, htw.2, if_neg (by simpa using hloc)]
  · exact strptimeFields_pads t loc [] hm1 hm2 hd1 hd2 hy1 hy2 hh hmi hs

/-- A successful pattern match captures a nonempty, all-ASCII-alphabetic
location tag. -/
lemma reMatchStem_loc_alpha (s : List Char) (g : StemGroups)
    (hg : reMatchStem s = some g) : g.loc ≠ [] ∧ ∀ c ∈ g.loc, c.isAlpha = true := by
  unfold reMatchStem at hg
  repeat' split at hg
  any_goals exact Option.noConfusion hg
  rename_i r12 heq
  by_cases hne : (List.takeWhile Char.isAlpha r12).isEmpty = true
  · rw [List.isEmpty_iff] at hne
    simp only [hne, List.isEmpty_nil, if_true] at hg
    exact Option.noConfusion hg
  · rw [Bool.not_eq_true] at hne
    simp only [hne, Bool.false_eq_true, if_false] at hg
    injection hg with hg2
    subst hg2
    constructor
    · intro hnil
      have hnil2 : List.takeWhile Char.isAlpha r12 = [] := hnil
      rw [hnil2] at hne
      simp at hne
    · intro c hc
      exact List.mem_takeWhile_imp hc

/-- A successful strptime yields in-range timestamp fields. -/
lemma strptimeFields_bounds (g : StemGroups) (t : Timestamp)
    (hit : strptimeFields g = some t) :
    1 ≤ t.month ∧ t.month ≤ 12 ∧ 1 ≤ t.day ∧ t.day ≤ daysInMonth t.year t.month ∧
      1 ≤ t.year ∧ t.year ≤ 9999 ∧ t.hour ≤ 23 ∧ t.minute ≤ 59 ∧ t.second ≤ 59 := by
  unfold strptimeFields at hit
  simp only [] at hit
  split at hit
  · rename_i hcond
    injection hit with ht
    subst ht
    exact hcond
  · exact Option.noConfusion hit

/-- C7: for every stem the script accepts (the pattern matches and the
timestamp construction succeeds — every valid Capture Filename in
particular), reformatting the parsed fields back into the
`MM-DD-YYYY_HH.MM.SS_Location` form and parsing again recovers exactly the
same timestamp and the same location tag. -/
theorem capture_filename_roundtrip (s : List Char) (g : StemGroups) (t : Timestamp)
    (hg : reMatchStem s = some g) (hit : strptimeFields g = some t) :
    ∃ g2, reMatchStem (formatStem t g.loc) = some g2 ∧ strptimeFields g2 = some t ∧
      g2.loc = g.loc ∧ g2.rest = [] := by
  obtain ⟨hne, halpha⟩ := reMatchStem_loc_alpha s g hg
  obtain ⟨hm1, hm2, hd1, hd2, hy1, hy2, hh, hmi, hs⟩ := strptimeFields_bounds g t hit
  exact format_fields_roundtrip t g.loc hm1 hm2 hd1 hd2 hy1 hy2 hh hmi hs hne halpha

/-- C8: pattern matching is anchored at the start only.  Any stem that begins
with a valid `MM-DD-YYYY_HH.MM.SS_Letters` block matches the pattern whatever
characters follow, and when the following characters do not start with a
letter the captured timestamp and location come from that leading block alone
(a location tag such as "Back yard" is captured only up to its alphabetic
run "Back"). -/
theorem pattern_matches_start_only (t : Timestamp) (loc suffix : List Char)
    (hm1 : 1 ≤ t.month) (hm2 : t.month ≤ 12)
    (hd1 : 1 ≤ t.day) (hd2 : t.day ≤ daysInMonth t.year t.month)
    (hy1 : 1 ≤ t.year) (hy2 : t.year ≤ 9999)
    (hh : t.hour ≤ 23) (hmi : t.minute ≤ 59) (hs : t.second ≤ 59)
    (hloc : loc ≠ []) (halpha : ∀ c ∈ loc, c.isAlpha = true) :
    (reMatchStem (formatStem t loc ++ suffix)).isSome = true ∧
    ((∀ c, suffix.head? = some c → c.isAlpha = false) →
      ∃ g, reMatchStem (formatStem t loc ++ suffix) = some g ∧
        strptimeFields g = some t ∧ g.loc = loc ∧ g.rest = suffix) := by
  have hdm := daysInMonth_le t.year t.month
  rw [formatStem_append]
  rw [reMatchStem_formatStem t (loc ++ suffix) (by omega) (by omega) (by omega) (by omega)
    (by omega) (by omega)]
  have hne : ((loc ++ suffix).takeWhile Char.isAlpha).isEmpty = false := by
    cases loc with
    | nil => exact absurd rfl hloc
    | cons c cs =>
      have hc : Char.isAlpha c = true := halpha c (by simp)
      simp [List.takeWhile, hc]
  constructor
  · rw [if_neg (by simp [hne])]
    rfl
  · intro hsuf
    have htw := takeWhile_append_all Char.isAlpha loc suffix halpha hsuf
    rw [htw.1, htw.2, if_neg (by simpa using hloc)]
    exact ⟨_, rfl, strptimeFields_pads t loc suffix hm1 hm2 hd1 hd2 hy1 hy2 hh hmi hs, rfl, rfl⟩

end DetectWrapper

namespace DetectWrapper

/-! ### Step-level facts about the per-label processing -/

lemma imageStep_snd_videoFiles (nf : String → Bool) (s : FSState) (b : String) :
    (imageStep nf s b).2.videoFiles = s.videoFiles := by
  by_cases h : (b ++ ".webp") ∈ s.imageFiles
  · by_cases h2 : nf (output_dir ++ "/" ++ (b ++ ".webp")) = true <;>
      simp [imageStep, h, h2]
  · simp [imageStep, h]

lemma imageStep_snd_annotatedFiles (nf : String → Bool) (s : FSState) (b : String) :
    (imageStep nf s b).2.annotatedFiles = s.annotatedFiles := by
  by_cases h : (b ++ ".webp") ∈ s.imageFiles
  · by_cases h2 : nf (output_dir ++ "/" ++ (b ++ ".webp")) = true <;>
      simp [imageStep, h, h2]
  · simp [imageStep, h]

lemma imageStep_snd_labelFiles (nf : String → Bool) (s : FSState) (b : String) :
    (imageStep nf s b).2.labelFiles = s.labelFiles := by
  by_cases h : (b ++ ".webp") ∈ s.imageFiles
  · by_cases h2 : nf (output_dir ++ "/" ++ (b ++ ".webp")) = true <;>
      simp [imageStep, h, h2]
  · simp [imageStep, h]

lemma imageStep_snd_nf (nf nf2 : String → Bool) (s : FSState) (b : String) :
    (imageStep nf s b).2 = (imageStep nf2 s b).2 := by
  by_cases h : (b ++ ".webp") ∈ s.imageFiles
  · by_cases h2 : nf (output_dir ++ "/" ++ (b ++ ".webp")) = true <;>
      by_cases h3 : nf2 (output_dir ++ "/" ++ (b ++ ".webp")) = true <;>
        simp [imageStep, h, h2, h3]
  · simp [imageStep, h]

lemma imageStep_outputFiles_mem (nf : String → Bool) (s : FSState) (b : String) :
    ∀ n ∈ (imageStep nf s b).2.outputFiles, n ∈ s.outputFiles ∨ n ∈ s.imageFiles := by
  intro n hn
  by_cases h : (b ++ ".webp") ∈ s.imageFiles
  · by_cases h2 : nf (output_dir ++ "/" ++ (b ++ ".webp")) = true <;>
      · simp only [imageStep, h, if_true, h2, if_false, if_pos, reduceIte] at hn
        rcases List.mem_append.mp hn with hn | hn
        · exact Or.inl hn
        · rw [List.mem_singleton.mp hn]
          exact Or.inr h
  · simp only [imageStep, h, if_false, reduceIte] at hn
    exact Or.inl hn

lemma videoStep_snd_annotatedFiles (it : Timestamp) (loc : List Char) (s : FSState)
    (b : String) : (videoStep it loc s b).2.annotatedFiles = s.annotatedFiles := by
  by_cases h : matchingVideos it loc s.videoFiles = [] <;> simp [videoStep, h]

lemma videoStep_snd_labelFiles (it : Timestamp) (loc : List Char) (s : FSState)
    (b : String) : (videoStep it loc s b).2.labelFiles = s.labelFiles := by
  by_cases h : matchingVideos it loc s.videoFiles = [] <;> simp [videoStep, h]

lemma matchingVideos_sub (it : Timestamp) (loc : List Char) (videoFiles : List String) :
    ∀ v ∈ matchingVideos it loc videoFiles, v ∈ videoFiles := by
  intro v hv
  simp only [matchingVideos, globExt, List.mem_filter] at hv
  exact hv.1.1

lemma videoStep_outputFiles_mem (it : Timestamp) (loc : List Char) (s : FSState)
    (b : String) :
    ∀ n ∈ (videoStep it loc s b).2.outputFiles, n ∈ s.outputFiles ∨ n ∈ s.videoFiles := by
  intro n hn
  by_cases h : matchingVideos it loc s.videoFiles = []
  · simp only [videoStep, h, if_pos, reduceIte] at hn
    exact Or.inl hn
  · simp only [videoStep, h, if_false, reduceIte] at hn
    rcases List.mem_append.mp hn with hn | hn
    · exact Or.inl hn
    · exact Or.inr (matchingVideos_sub it loc s.videoFiles n hn)

lemma videoStep_matched_moved (it : Timestamp) (loc : List Char) (s : FSState)
    (b : String) :
    ∀ v ∈ matchingVideos it loc s.videoFiles, v ∈ (videoStep it loc s b).2.outputFiles := by
  intro v hv
  have h : matchingVideos it loc s.videoFiles ≠ [] := by
    intro hnil
    rw [hnil] at hv
    simp at hv
  simp only [videoStep, h, if_false, reduceIte]
  exact List.mem_append.mpr (Or.inr hv)

/-- Unfolding of `processLabel` on a label whose stem parses to a valid
timestamp. -/
lemma processLabel_valid (nf : String → Bool) (s : FSState) (l : String)
    (g : StemGroups) (it : Timestamp)
    (hg : reMatchStem (stemOf l).data = some g) (hit : strptimeFields g = some it) :
    processLabel nf s l =
      some ((imageStep nf s (stemOf l)).1
              ++ ((videoStep it g.loc (imageStep nf s (stemOf l)).2 (stemOf l)).1
              ++ (annotatedStep (videoStep it g.loc (imageStep nf s (stemOf l)).2 (stemOf l)).2
                    (stemOf l)
              ++ [Event.deletedLabel l])),
            { (videoStep it g.loc (imageStep nf s (stemOf l)).2 (stemOf l)).2 with
                labelFiles := (videoStep it g.loc (imageStep nf s (stemOf l)).2
                                (stemOf l)).2.labelFiles.erase l }) := by
  simp only [processLabel, hg, hit]

lemma processLabel_malformed (nf : String → Bool) (s : FSState) (l : String)
    (h : reMatchStem (stemOf l).data = none) :
    processLabel nf s l =
      some ([Event.deletedLabel l], { s with labelFiles := s.labelFiles.erase l }) := by
  simp only [processLabel, h]

lemma processLabel_none_iff (nf : String → Bool) (s : FSState) (l : String) :
    processLabel nf s l = none ↔
      ∃ g, reMatchStem (stemOf l).data = some g ∧ strptimeFields g = none := by
  rcases hg : reMatchStem (stemOf l).data with _ | g
  · simp [processLabel, hg]
  · rcases hit : strptimeFields g with _ | it
    · simp [processLabel, hg, hit]
    · simp [processLabel, hg, hit]

lemma processLabel_isSome_of_safe (nf : String → Bool) (s : FSState) (l : String)
    (h : safeLabel l = true) : (processLabel nf s l).isSome = true := by
  rcases hg : reMatchStem (stemOf l).data with _ | g
  · rw [processLabel_malformed nf s l hg]
    rfl
  · rcases hit : strptimeFields g with _ | it
    · simp [safeLabel, hg, hit] at h
    · rw [processLabel_valid nf s l g it hg hit]
      rfl

lemma getLast_concat (l : List Event) (a : Event) : (l ++ [a]).getLast? = some a := by
  simp [List.getLast?_append]

lemma processLabel_getLast (nf : String → Bool) (s : FSState) (l : String)
    (ev : List Event) (s2 : FSState) (hp : processLabel nf s l = some (ev, s2)) :
    ev.getLast? = some (Event.deletedLabel l) := by
  rcases hg : reMatchStem (stemOf l).data with _ | g
  · rw [processLabel_malformed nf s l hg] at hp
    injection hp with hpair
    injection hpair with h1 h2
    subst h1
    rfl
  · rcases hit : strptimeFields g with _ | it
    · rw [(processLabel_none_iff nf s l).mpr ⟨g, hg, hit⟩] at hp
      exact absurd hp (by simp)
    · rw [processLabel_valid nf s l g it hg hit] at hp
      injection hp with hpair
      injection hpair with h1 h2
      subst h1
      rw [← List.append_assoc, ← List.append_assoc]
      exact getLast_concat _ _

lemma processLabel_mem_deleted (nf : String → Bool) (s : FSState) (l : String)
    (ev : List Event) (s2 : FSState) (hp : processLabel nf s l = some (ev, s2)) :
    Event.deletedLabel l ∈ ev := by
  rcases hg : reMatchStem (stemOf l).data with _ | g
  · rw [processLabel_malformed nf s l hg] at hp
    injection hp with hpair
    injection hpair with h1 h2
    subst h1
    simp
  · rcases hit : strptimeFields g with _ | it
    · rw [(processLabel_none_iff nf s l).mpr ⟨g, hg, hit⟩] at hp
      exact absurd hp (by simp)
    · rw [processLabel_valid nf s l g it hg hit] at hp
      injection hp with hpair
      injection hpair with h1 h2
      subst h1
      simp

lemma processLabel_snd_annotatedFiles (nf : String → Bool) (s : FSState) (l : String)
    (ev : List Event) (s2 : FSState) (hp : processLabel nf s l = some (ev, s2)) :
    s2.annotatedFiles = s.annotatedFiles := by
  rcases hg : reMatchStem (stemOf l).data with _ | g
  · rw [processLabel_malformed nf s l hg] at hp
    injection hp with hpair
    injection hpair with h1 h2
    subst h2
    rfl
  · rcases hit : strptimeFields g with _ | it
    · rw [(processLabel_none_iff nf s l).mpr ⟨g, hg, hit⟩] at hp
      exact absurd hp (by simp)
    · rw [processLabel_valid nf s l g it hg hit] at hp
      injection hp with hpair
      injection hpair with h1 h2
      subst h2
      show (videoStep it g.loc (imageStep nf s (stemOf l)).2 (stemOf l)).2.annotatedFiles
            = s.annotatedFiles
      rw [videoStep_snd_annotatedFiles, imageStep_snd_annotatedFiles]

lemma processLabel_snd_nf (nf nf2 : String → Bool) (s : FSState) (l : String) :
    (processLabel nf s l).map Prod.snd = (processLabel nf2 s l).map Prod.snd := by
  rcases hg : reMatchStem (stemOf l).data with _ | g
  · rw [processLabel_malformed nf s l hg, processLabel_malformed nf2 s l hg]
  · rcases hit : strptimeFields g with _ | it
    · rw [(processLabel_none_iff nf s l).mpr ⟨g, hg, hit⟩,
        (processLabel_none_iff nf2 s l).mpr ⟨g, hg, hit⟩]
    · rw [processLabel_valid nf s l g it hg hit, processLabel_valid nf2 s l g it hg hit]
      rw [imageStep_snd_nf nf nf2 s (stemOf l)]
      rfl

end DetectWrapper

namespace DetectWrapper

/-! ### Run-level facts about the label loop -/

lemma processLabels_acc (nf : String → Bool) :
    ∀ (ls : List String) (s : FSState) (acc tr : List Event) (s2 : FSState),
      processLabels nf ls s acc = .ok (tr, s2) → ∃ t2, tr = acc ++ t2
  | [], s, acc, tr, s2, h => by
      injection h with hpair
      injection hpair with h1 h2
      exact ⟨[], by simp [h1]⟩
  | l :: ls, s, acc, tr, s2, h => by
      rw [processLabels] at h
      rcases hp : processLabel nf s l with _ | p
      · rw [hp] at h
        exact absurd h (by simp)
      · rw [hp] at h
        obtain ⟨t2, ht2⟩ := processLabels_acc nf ls p.2 (acc ++ p.1) tr s2 h
        exact ⟨p.1 ++ t2, by simp [ht2]⟩

lemma processLabels_ok_of_safe (nf : String → Bool) :
    ∀ (ls : List String) (s : FSState) (acc : List Event),
      (∀ l ∈ ls, safeLabel l = true) →
      ∃ tr s2, processLabels nf ls s acc = .ok (tr, s2) ∧
        ∀ l ∈ ls, Event.deletedLabel l ∈ tr
  | [], s, acc, _ => ⟨acc, s, rfl, by simp⟩
  | l :: ls, s, acc, hsafe => by
      have hsome := processLabel_isSome_of_safe nf s l (hsafe l (by simp))
      rcases hp : processLabel nf s l with _ | p
      · rw [hp] at hsome
        simp at hsome
      · obtain ⟨tr, s2, hok, hdel⟩ :=
          processLabels_ok_of_safe nf ls p.2 (acc ++ p.1)
            (fun x hx => hsafe x (by simp [hx]))
        refine ⟨tr, s2, by rw [processLabels, hp]; exact hok, ?_⟩
        intro x hx
        rcases List.mem_cons.mp hx with hx | hx
        · obtain ⟨t2, ht2⟩ := processLabels_acc nf ls p.2 (acc ++ p.1) tr s2 hok
          rw [ht2]
          have : Event.deletedLabel l ∈ p.1 :=
            processLabel_mem_deleted nf s l p.1 p.2 (by rw [hp])
          subst hx
          simp [this]
        · exact hdel x hx

lemma processLabels_annotatedFiles (nf : String → Bool) :
    ∀ (ls : List String) (s : FSState) (acc tr : List Event) (s2 : FSState),
      processLabels nf ls s acc = .ok (tr, s2) → s2.annotatedFiles = s.annotatedFiles
  | [], s, acc, tr, s2, h => by
      injection h with hpair
      injection hpair with h1 h2
      rw [← h2]
  | l :: ls, s, acc, tr, s2, h => by
      rw [processLabels] at h
      rcases hp : processLabel nf s l with _ | p
      · rw [hp] at h
        exact absurd h (by simp)
      · rw [hp] at h
        have h1 := processLabels_annotatedFiles nf ls p.2 (acc ++ p.1) tr s2 h
        have h2 := processLabel_snd_annotatedFiles nf s l p.1 p.2 (by rw [hp])
        rw [h1, h2]

end DetectWrapper

namespace DetectWrapper

/-- C1: a video clip of the video directory whose stem parses is selected as
a match for a well-formed label stem exactly when its location tag equals
the image's case-insensitively and the absolute timestamp difference is at
most `tolerance_seconds` (40, inclusive), and every selected clip ends up in
the output directory after that label is processed. -/
theorem video_correlation_window (s : FSState) (nf : String → Bool) (l : String)
    (g : StemGroups) (it : Timestamp)
    (hg : reMatchStem (stemOf l).data = some g) (hit : strptimeFields g = some it)
    (v : String) (hv : v ∈ s.videoFiles) (hext : endsWithChars v.data ".mkv".data = true)
    (gv : StemGroups) (hgv : reMatchStem (stemOf v).data = some gv)
    (vt : Timestamp) (hvt : strptimeFields gv = some vt) :
    (v ∈ matchingVideos it g.loc s.videoFiles ↔
      (lowerStr gv.loc = lowerStr g.loc ∧ timeDiffSec vt it ≤ tolerance_seconds)) ∧
    (∀ ev s2, processLabel nf s l = some (ev, s2) →
      v ∈ matchingVideos it g.loc s.videoFiles → v ∈ s2.outputFiles) := by
  constructor
  · rw [matchingVideos, List.mem_filter]
    constructor
    · rintro ⟨hin, hmatch⟩
      simp only [videoMatches, hgv, hvt] at hmatch
      by_cases hl : lowerStr gv.loc = lowerStr g.loc
      · refine ⟨hl, ?_⟩
        rw [if_pos hl] at hmatch
        exact of_decide_eq_true hmatch
      · rw [if_neg hl] at hmatch
        exact absurd hmatch (by simp)
    · rintro ⟨hl, hd⟩
      constructor
      · rw [globExt, List.mem_filter]
        exact ⟨hv, hext⟩
      · simp only [videoMatches, hgv, hvt]
        rw [if_pos hl]
        exact decide_eq_true hd
  · intro ev s2 hp hm
    rw [processLabel_valid nf s l g it hg hit] at hp
    injection hp with hpair
    injection hpair with h1 h2
    subst h2
    show v ∈ (videoStep it g.loc (imageStep nf s (stemOf l)).2 (stemOf l)).2.outputFiles
    apply videoStep_matched_moved
    rw [imageStep_snd_videoFiles]
    exact hm

/-- C2: when the labels directory is absent or holds no `.txt` file, the run
returns exit code 0, every `.webp` image, `.mkv` video, `.txt` label and
dotted annotated artifact is deleted, and the trace holds nothing but
deletions (no per-label processing happened). -/
theorem empty_labels_cleanup (s : FSState) (nf : String → Bool)
    (h : s.labelsDirExists = false ∨ globExt ".txt" (labelsOf s) = []) :
    ∃ ev s2, runWrapper 0 nf s = .ok (0, ev, s2) ∧
      (∀ n ∈ s.imageFiles, endsWithChars n.data ".webp".data = true → n ∉ s2.imageFiles) ∧
      (∀ n ∈ s.videoFiles, endsWithChars n.data ".mkv".data = true → n ∉ s2.videoFiles) ∧
      (∀ n ∈ labelsOf s, endsWithChars n.data ".txt".data = true → n ∉ s2.labelFiles) ∧
      (∀ n ∈ s.annotatedFiles, n.data.any (fun c => c == '.') = true →
        n ∉ s2.annotatedFiles) ∧
      (∀ e ∈ ev, (∃ n, e = Event.deletedImage n) ∨ (∃ n, e = Event.deletedVideo n) ∨
        (∃ n, e = Event.deletedLabel n) ∨ (∃ n, e = Event.deletedAnnotated n)) := by
  have hcond : (!s.labelsDirExists || (globExt ".txt" (labelsOf s)).isEmpty) = true := by
    rcases h with h | h
    · rw [h]
      rfl
    · rw [h]
      simp
  rw [runWrapper, if_neg (by simp), if_pos hcond]
  refine ⟨_, _, rfl, ?_, ?_, ?_, ?_, ?_⟩
  · intro n hn hext hmem
    have : n ∈ s.imageFiles.filter (fun n => !(endsWithChars n.data ".webp".data)) := hmem
    rw [List.mem_filter, hext] at this
    simp at this
  · intro n hn hext hmem
    have : n ∈ s.videoFiles.filter (fun n => !(endsWithChars n.data ".mkv".data)) := hmem
    rw [List.mem_filter, hext] at this
    simp at this
  · intro n hn hext hmem
    have : n ∈ (labelsOf s).filter (fun n => !(endsWithChars n.data ".txt".data)) := hmem
    rw [List.mem_filter, hext] at this
    simp at this
  · intro n hn hdot hmem
    have : n ∈ s.annotatedFiles.filter (fun n => !(n.data.any (fun c => c == '.'))) := hmem
    rw [List.mem_filter, hdot] at this
    simp at this
  · intro e he
    have : e ∈ (globExt ".webp" s.imageFiles).map Event.deletedImage
        ++ (globExt ".mkv" s.videoFiles).map Event.deletedVideo
        ++ (globExt ".txt" (labelsOf s)).map Event.deletedLabel
        ++ (globDotAny s.annotatedFiles).map Event.deletedAnnotated := he
    simp only [List.mem_append, List.mem_map] at this
    rcases this with ((⟨n, _, he⟩ | ⟨n, _, he⟩) | ⟨n, _, he⟩) | ⟨n, _, he⟩
    · exact Or.inl ⟨n, he.symm⟩
    · exact Or.inr (Or.inl ⟨n, he.symm⟩)
    · exact Or.inr (Or.inr (Or.inl ⟨n, he.symm⟩))
    · exact Or.inr (Or.inr (Or.inr ⟨n, he.symm⟩))

/-- C4: a label file whose stem fails the filename pattern is deleted and
nothing else happens to the state, and the loop goes on with the remaining
label files. -/
theorem malformed_label_deleted (s : FSState) (nf : String → Bool) (l : String)
    (h : reMatchStem (stemOf l).data = none) :
    processLabel nf s l =
      some ([Event.deletedLabel l], { s with labelFiles := s.labelFiles.erase l }) ∧
    (∀ (ls : List String) (acc : List Event),
      processLabels nf (l :: ls) s acc =
        processLabels nf ls { s with labelFiles := s.labelFiles.erase l }
          (acc ++ [Event.deletedLabel l])) := by
  refine ⟨processLabel_malformed nf s l h, ?_⟩
  intro ls acc
  rw [processLabels, processLabel_malformed nf s l h]

/-- C10: a video whose stem matches the pattern but encodes an invalid
calendar date is silently skipped (never selected, never a failure: label
processing still succeeds whenever the label itself is well formed), while
the identical timestamp construction for a label stem is unguarded: an
invalid date there makes `processLabel` fail. -/
theorem invalid_timestamp_guard (s : FSState) (nf : String → Bool) (l : String)
    (it : Timestamp) (loc : List Char)
    (v : String) (gv : StemGroups)
    (hgv : reMatchStem (stemOf v).data = some gv) (hbad : strptimeFields gv = none) :
    v ∉ matchingVideos it loc s.videoFiles ∧
    (∀ g it2, reMatchStem (stemOf l).data = some g → strptimeFields g = some it2 →
      (processLabel nf s l).isSome = true) ∧
    (∀ g, reMatchStem (stemOf l).data = some g → strptimeFields g = none →
      processLabel nf s l = none) := by
  refine ⟨?_, ?_, ?_⟩
  · intro hm
    rw [matchingVideos, List.mem_filter] at hm
    have hmatch := hm.2
    simp only [videoMatches, hgv, hbad] at hmatch
    by_cases hl : lowerStr gv.loc = lowerStr loc
    · rw [if_pos hl] at hmatch
      exact absurd hmatch (by simp)
    · rw [if_neg hl] at hmatch
      exact absurd hmatch (by simp)
  · intro g it2 hg hit
    rw [processLabel_valid nf s l g it2 hg hit]
    rfl
  · intro g hg hbad2
    exact (processLabel_none_iff nf s l).mpr ⟨g, hg, hbad2⟩

end DetectWrapper

namespace DetectWrapper

/-- C3 (amended): in every completed label iteration the label file is
deleted last; the notification outcome never changes the resulting state
(and hence never prevents any deletion); and when every label stem that
matches the pattern encodes a valid timestamp, the loop runs to completion
and deletes every label file, whatever the notification outcomes.  (The
amendment is forced by the unguarded line-84 strptime: a pattern-matching
label stem with an invalid date aborts the run before deleting that label,
see the counterexample.) -/
theorem label_deleted_last (s : FSState) (nf nf2 : String → Bool) :
    (∀ l ev s2, processLabel nf s l = some (ev, s2) →
      ev.getLast? = some (Event.deletedLabel l)) ∧
    (∀ l, (processLabel nf s l).map Prod.snd = (processLabel nf2 s l).map Prod.snd) ∧
    (∀ (ls : List String) (acc : List Event), (∀ l ∈ ls, safeLabel l = true) →
      ∃ tr s2, processLabels nf ls s acc = .ok (tr, s2) ∧
        ∀ l ∈ ls, Event.deletedLabel l ∈ tr) :=
  ⟨fun l ev s2 hp => processLabel_getLast nf s l ev s2 hp,
   fun l => processLabel_snd_nf nf nf2 s l,
   fun ls acc hsafe => processLabels_ok_of_safe nf ls s acc hsafe⟩

/-- C3 counterexample: a label file whose stem matches the pattern but names
February 30 enters the loop, raises the uncaught `ValueError`, is never
deleted, and aborts the processing of the remaining label file. -/
theorem label_deleted_last_cex :
    runWrapper 0 (fun _ => false)
        ⟨[], [], true, ["02-30-2024_10.00.00_Yard.txt", "01-01-2024_10.00.00_Yard.txt"],
         [], []⟩ =
      .error ([], ⟨[], [], true,
        ["02-30-2024_10.00.00_Yard.txt", "01-01-2024_10.00.00_Yard.txt"], [], []⟩) ∧
    "02-30-2024_10.00.00_Yard.txt" ∈ globExt ".txt" (labelsOf ⟨[], [], true,
        ["02-30-2024_10.00.00_Yard.txt", "01-01-2024_10.00.00_Yard.txt"], [], []⟩) ∧
    Event.deletedLabel "02-30-2024_10.00.00_Yard.txt" ∉ ([] : List Event) :=
  ⟨rfl, by decide, by decide⟩

/-- C6 (amended): a failing detector makes the run exit with code 1 at once,
with an empty trace and an untouched state; the cleanup path exits 0; every
normal termination has code 1 exactly when the detector failed and code 0
exactly when it succeeded (so a completed run — cleanup or label loop —
exits 0); and the only other way out is the uncaught `ValueError`
(interpreter status 1), which can happen only when the detector
succeeded. -/
theorem exit_code_policy (ret : Int) (nf : String → Bool) (s : FSState) :
    (ret ≠ 0 → runWrapper ret nf s = .ok (1, [], s)) ∧
    (ret = 0 → (s.labelsDirExists = false ∨ globExt ".txt" (labelsOf s) = []) →
      exitStatus (runWrapper ret nf s) = 0) ∧
    (∀ c ev s2, runWrapper ret nf s = .ok (c, ev, s2) →
      (c = 1 ↔ ret ≠ 0) ∧ (c = 0 ↔ ret = 0)) ∧
    (∀ e, runWrapper ret nf s = .error e → ret = 0 ∧ exitStatus (runWrapper ret nf s) = 1) := by
  refine ⟨?_, ?_, ?_, ?_⟩
  · intro h
    rw [runWrapper, if_pos h]
  · intro h hc
    subst h
    have hcond : (!s.labelsDirExists || (globExt ".txt" (labelsOf s)).isEmpty) = true := by
      rcases hc with hc | hc
      · rw [hc]
        rfl
      · rw [hc]
        simp
    rw [runWrapper, if_neg (by simp), if_pos hcond]
    rfl
  · intro c ev s2 hok
    by_cases h : ret = 0
    · subst h
      have hc0 : c = 0 := by
        rw [runWrapper, if_neg (by simp)] at hok
        by_cases hcond : (!s.labelsDirExists || (globExt ".txt" (labelsOf s)).isEmpty) = true
        · rw [if_pos hcond] at hok
          injection hok with hpair
          injection hpair with h1 h2
          exact h1.symm
        · rw [if_neg hcond] at hok
          rcases hm : processLabels nf (globExt ".txt" (labelsOf s)) s [] with e2 | p
          · rw [hm] at hok
            exact Except.noConfusion hok
          · rw [hm] at hok
            injection hok with hpair
            injection hpair with h1 h2
            exact h1.symm
      subst hc0
      exact ⟨⟨fun h01 => absurd h01 (by decide), fun h0 => absurd rfl h0⟩,
             ⟨fun _ => rfl, fun _ => rfl⟩⟩
    · rw [runWrapper, if_pos h] at hok
      injection hok with hpair
      injection hpair with h1 h2
      rw [← h1]
      exact ⟨⟨fun _ => h, fun _ => rfl⟩,
             ⟨fun h10 => absurd h10 (by decide), fun h0 => absurd h0 h⟩⟩
  · intro e herr
    by_cases h : ret = 0
    · refine ⟨h, ?_⟩
      rw [herr]
      rfl
    · rw [runWrapper, if_pos h] at herr
      exact Except.noConfusion herr

/-- C6 counterexample: with the detector succeeding (return code 0) but a
label stem naming month 13 present, the interpreter still exits with
status 1 — via the uncaught `ValueError`, not the detector check — so
"exit code 1 exactly when the detector returned non-zero" is false. -/
theorem exit_code_policy_cex :
    ¬ (exitStatus (runWrapper 0 (fun _ => false)
        ⟨[], [], true, ["13-01-2024_10.00.00_Porch.txt"], [], []⟩) = 1 ↔ (0 : Int) ≠ 0) := by
  decide

end DetectWrapper

namespace DetectWrapper

/-! ### Event-shape lemmas for the image, video and annotated steps -/

lemma imageStep_missing (nf : String → Bool) (s : FSState) (b : String)
    (h : (b ++ ".webp") ∉ s.imageFiles) :
    imageStep nf s b = ([Event.loggedImageMissing b], s) := by
  simp [imageStep, h]

lemma imageStep_moved (nf : String → Bool) (s : FSState) (b : String)
    (h : (b ++ ".webp") ∈ s.imageFiles)
    (h2 : nf (output_dir ++ "/" ++ (b ++ ".webp")) = false) :
    imageStep nf s b =
      ([Event.movedImage (b ++ ".webp"),
        Event.notified pushover_token pushover_user pushover_message
          (output_dir ++ "/" ++ (b ++ ".webp")) pushover_url],
       { s with imageFiles := s.imageFiles.erase (b ++ ".webp"),
                outputFiles := s.outputFiles ++ [b ++ ".webp"] }) := by
  simp [imageStep, h, h2]

lemma imageStep_notified_inv (nf : String → Bool) (s : FSState) (b : String)
    (t u m p url : String) (h : Event.notified t u m p url ∈ (imageStep nf s b).1) :
    (b ++ ".webp") ∈ s.imageFiles ∧ t = pushover_token ∧ u = pushover_user
      ∧ m = pushover_message ∧ p = output_dir ++ "/" ++ (b ++ ".webp")
      ∧ url = pushover_url := by
  by_cases hm : (b ++ ".webp") ∈ s.imageFiles
  · by_cases h2 : nf (output_dir ++ "/" ++ (b ++ ".webp")) = true
    · simp [imageStep, hm, h2] at h
    · simp [imageStep, hm, h2] at h
      exact ⟨hm, h.1, h.2.1, h.2.2.1, h.2.2.2.1, h.2.2.2.2⟩
  · simp [imageStep, hm] at h

lemma imageStep_notifyFailed_inv (nf : String → Bool) (s : FSState) (b : String)
    (h : Event.notifyFailed ∈ (imageStep nf s b).1) : (b ++ ".webp") ∈ s.imageFiles := by
  by_cases hm : (b ++ ".webp") ∈ s.imageFiles
  · exact hm
  · simp [imageStep, hm] at h

lemma videoStep_no_notified (it : Timestamp) (loc : List Char) (s : FSState) (b : String)
    (t u m p url : String) : Event.notified t u m p url ∉ (videoStep it loc s b).1 := by
  by_cases h : matchingVideos it loc s.videoFiles = [] <;> simp [videoStep, h]

lemma videoStep_no_notifyFailed (it : Timestamp) (loc : List Char) (s : FSState)
    (b : String) : Event.notifyFailed ∉ (videoStep it loc s b).1 := by
  by_cases h : matchingVideos it loc s.videoFiles = [] <;> simp [videoStep, h]

lemma videoStep_no_deletedAnnotated (it : Timestamp) (loc : List Char) (s : FSState)
    (b : String) (n : String) : Event.deletedAnnotated n ∉ (videoStep it loc s b).1 := by
  by_cases h : matchingVideos it loc s.videoFiles = [] <;> simp [videoStep, h]

lemma videoStep_outputFiles_mono (it : Timestamp) (loc : List Char) (s : FSState)
    (b : String) (n : String) (h : n ∈ s.outputFiles) :
    n ∈ (videoStep it loc s b).2.outputFiles := by
  by_cases hm : matchingVideos it loc s.videoFiles = []
  · simp [videoStep, hm, h]
  · simp only [videoStep, hm, if_false, reduceIte]
    exact List.mem_append.mpr (Or.inl h)

lemma annotatedStep_cases (s : FSState) (b : String) :
    (∃ f, annotatedStep s b = [Event.annotatedRetained f]) ∨
      annotatedStep s b = [Event.loggedAnnotatedMissing b] := by
  simp only [annotatedStep]
  rcases hf : List.filter (fun f => decide (f ∈ s.annotatedFiles))
      [b ++ ".webp", b ++ ".jpg", b ++ ".jpeg", b ++ ".png"] with _ | ⟨f, fs⟩
  · exact Or.inr rfl
  · exact Or.inl ⟨f, rfl⟩

lemma annotatedStep_webp (s : FSState) (b : String)
    (h : (b ++ ".webp") ∈ s.annotatedFiles) :
    annotatedStep s b = [Event.annotatedRetained (b ++ ".webp")] := by
  simp only [annotatedStep, List.filter, decide_eq_true h]

lemma annotatedStep_jpg (s : FSState) (b : String)
    (h0 : (b ++ ".webp") ∉ s.annotatedFiles) (h : (b ++ ".jpg") ∈ s.annotatedFiles) :
    annotatedStep s b = [Event.annotatedRetained (b ++ ".jpg")] := by
  simp only [annotatedStep, List.filter, decide_eq_false h0, decide_eq_true h]

lemma annotatedStep_jpeg (s : FSState) (b : String)
    (h0 : (b ++ ".webp") ∉ s.annotatedFiles) (h1 : (b ++ ".jpg") ∉ s.annotatedFiles)
    (h : (b ++ ".jpeg") ∈ s.annotatedFiles) :
    annotatedStep s b = [Event.annotatedRetained (b ++ ".jpeg")] := by
  simp only [annotatedStep, List.filter, decide_eq_false h0, decide_eq_false h1,
    decide_eq_true h]

lemma annotatedStep_png (s : FSState) (b : String)
    (h0 : (b ++ ".webp") ∉ s.annotatedFiles) (h1 : (b ++ ".jpg") ∉ s.annotatedFiles)
    (h2 : (b ++ ".jpeg") ∉ s.annotatedFiles) (h : (b ++ ".png") ∈ s.annotatedFiles) :
    annotatedStep s b = [Event.annotatedRetained (b ++ ".png")] := by
  simp only [annotatedStep, List.filter, decide_eq_false h0, decide_eq_false h1,
    decide_eq_false h2, decide_eq_true h]

lemma processLabel_no_deletedAnnotated (nf : String → Bool) (s : FSState) (l : String)
    (ev : List Event) (s2 : FSState) (hp : processLabel nf s l = some (ev, s2))
    (n : String) : Event.deletedAnnotated n ∉ ev := by
  rcases hg : reMatchStem (stemOf l).data with _ | g
  · rw [processLabel_malformed nf s l hg] at hp
    injection hp with hpair
    injection hpair with h1 h2
    subst h1
    simp
  · rcases hit : strptimeFields g with _ | it
    · rw [(processLabel_none_iff nf s l).mpr ⟨g, hg, hit⟩] at hp
      exact absurd hp (by simp)
    · rw [processLabel_valid nf s l g it hg hit] at hp
      injection hp with hpair
      injection hpair with h1 h2
      subst h1
      intro hmem
      rcases List.mem_append.mp hmem with hmem | hmem
      · by_cases hm : (stemOf l ++ ".webp") ∈ s.imageFiles
        · by_cases h2 : nf (output_dir ++ "/" ++ (stemOf l ++ ".webp")) = true <;>
            simp [imageStep, hm, h2] at hmem
        · simp [imageStep, hm] at hmem
      · rcases List.mem_append.mp hmem with hmem | hmem
        · exact videoStep_no_deletedAnnotated _ _ _ _ n hmem
        · rcases List.mem_append.mp hmem with hmem | hmem
          · rcases annotatedStep_cases ((videoStep it g.loc (imageStep nf s (stemOf l)).2
                (stemOf l)).2) (stemOf l) with ⟨f, hf⟩ | hf <;> rw [hf] at hmem <;>
              simp at hmem
          · simp at hmem

end DetectWrapper

namespace DetectWrapper

/-- C5: the Pushover notification is issued only right after a successful
move of the original capture image, with the fixed credentials, the fixed
message and the moved image's destination path attached; when the original
image is absent, its absence is logged, no notification of any kind is
attempted, and the label's processing still performs the video correlation
and deletes the label file last. -/
theorem notification_after_image_move (s : FSState) (nf : String → Bool) (l : String)
    (g : StemGroups) (it : Timestamp)
    (hg : reMatchStem (stemOf l).data = some g) (hit : strptimeFields g = some it) :
    (stemOf l ++ ".webp" ∈ s.imageFiles →
      nf (output_dir ++ "/" ++ (stemOf l ++ ".webp")) = false →
      ∃ evr s2, processLabel nf s l =
        some (Event.movedImage (stemOf l ++ ".webp")
              :: Event.notified pushover_token pushover_user pushover_message
                   (output_dir ++ "/" ++ (stemOf l ++ ".webp")) pushover_url :: evr, s2) ∧
        stemOf l ++ ".webp" ∈ s2.outputFiles) ∧
    (∀ ev s2 t u m p url, processLabel nf s l = some (ev, s2) →
      Event.notified t u m p url ∈ ev →
      stemOf l ++ ".webp" ∈ s.imageFiles ∧ t = pushover_token ∧ u = pushover_user
        ∧ m = pushover_message ∧ p = output_dir ++ "/" ++ (stemOf l ++ ".webp")) ∧
    (stemOf l ++ ".webp" ∉ s.imageFiles →
      ∃ ev s2, processLabel nf s l = some (ev, s2) ∧
        Event.loggedImageMissing (stemOf l) ∈ ev ∧
        (∀ t u m p url, Event.notified t u m p url ∉ ev) ∧
        Event.notifyFailed ∉ ev ∧
        (∀ v ∈ matchingVideos it g.loc s.videoFiles, v ∈ s2.outputFiles) ∧
        ev.getLast? = some (Event.deletedLabel l)) := by
  refine ⟨?_, ?_, ?_⟩
  · intro hm h2
    rw [processLabel_valid nf s l g it hg hit, imageStep_moved nf s (stemOf l) hm h2]
    refine ⟨_, _, rfl, ?_⟩
    show stemOf l ++ ".webp" ∈
      (videoStep it g.loc
        { s with imageFiles := s.imageFiles.erase (stemOf l ++ ".webp"),
                 outputFiles := s.outputFiles ++ [stemOf l ++ ".webp"] }
        (stemOf l)).2.outputFiles
    apply videoStep_outputFiles_mono
    simp
  · intro ev s2 t u m p url hp hmem
    rw [processLabel_valid nf s l g it hg hit] at hp
    injection hp with hpair
    injection hpair with h1 h2
    subst h1
    rcases List.mem_append.mp hmem with hmem | hmem
    · have hi := imageStep_notified_inv nf s (stemOf l) t u m p url hmem
      exact ⟨hi.1, hi.2.1, hi.2.2.1, hi.2.2.2.1, hi.2.2.2.2.1⟩
    · rcases List.mem_append.mp hmem with hmem | hmem
      · exact absurd hmem (videoStep_no_notified _ _ _ _ t u m p url)
      · rcases List.mem_append.mp hmem with hmem | hmem
        · rcases annotatedStep_cases ((videoStep it g.loc (imageStep nf s (stemOf l)).2
              (stemOf l)).2) (stemOf l) with ⟨f, hf⟩ | hf <;> rw [hf] at hmem <;>
            simp at hmem
        · simp at hmem
  · intro hm
    rw [processLabel_valid nf s l g it hg hit, imageStep_missing nf s (stemOf l) hm]
    refine ⟨_, _, rfl, ?_, ?_, ?_, ?_, ?_⟩
    · exact List.mem_append.mpr (Or.inl (by simp))
    · intro t u m p url hmem
      rcases List.mem_append.mp hmem with hmem | hmem
      · simp at hmem
      · rcases List.mem_append.mp hmem with hmem | hmem
        · exact absurd hmem (videoStep_no_notified _ _ _ _ t u m p url)
        · rcases List.mem_append.mp hmem with hmem | hmem
          · rcases annotatedStep_cases ((videoStep it g.loc s (stemOf l)).2) (stemOf l)
              with ⟨f, hf⟩ | hf <;> rw [hf] at hmem <;> simp at hmem
          · simp at hmem
    · intro hmem
      rcases List.mem_append.mp hmem with hmem | hmem
      · simp at hmem
      · rcases List.mem_append.mp hmem with hmem | hmem
        · exact absurd hmem (videoStep_no_notifyFailed _ _ _ _)
        · rcases List.mem_append.mp hmem with hmem | hmem
          · rcases annotatedStep_cases ((videoStep it g.loc s (stemOf l)).2) (stemOf l)
              with ⟨f, hf⟩ | hf <;> rw [hf] at hmem <;> simp at hmem
          · simp at hmem
    · intro v hv
      show v ∈ (videoStep it g.loc s (stemOf l)).2.outputFiles
      exact videoStep_matched_moved it g.loc s (stemOf l) v hv
    · rw [← List.append_assoc, ← List.append_assoc]
      exact getLast_concat _ _

/-- C9: processing a well-formed label never deletes or moves an annotated
image: the annotated directory is unchanged by each label iteration and by
the whole loop, the output directory only ever receives files from the
capture and video directories, no annotated-deletion effect occurs, and the
retained annotated counterpart is found by trying the extensions webp, jpg,
jpeg, png in that fixed order, first existing candidate winning. -/
theorem annotated_image_retained (s : FSState) (nf : String → Bool) (l : String)
    (g : StemGroups) (it : Timestamp) (ev : List Event) (s2 : FSState)
    (hg : reMatchStem (stemOf l).data = some g) (hit : strptimeFields g = some it)
    (hp : processLabel nf s l = some (ev, s2)) :
    s2.annotatedFiles = s.annotatedFiles ∧
    (∀ n ∈ s2.outputFiles, n ∈ s.outputFiles ∨ n ∈ s.imageFiles ∨ n ∈ s.videoFiles) ∧
    (∀ n, Event.deletedAnnotated n ∉ ev) ∧
    (stemOf l ++ ".webp" ∈ s.annotatedFiles →
      Event.annotatedRetained (stemOf l ++ ".webp") ∈ ev) ∧
    (stemOf l ++ ".webp" ∉ s.annotatedFiles → stemOf l ++ ".jpg" ∈ s.annotatedFiles →
      Event.annotatedRetained (stemOf l ++ ".jpg") ∈ ev) ∧
    (stemOf l ++ ".webp" ∉ s.annotatedFiles → stemOf l ++ ".jpg" ∉ s.annotatedFiles →
      stemOf l ++ ".jpeg" ∈ s.annotatedFiles →
      Event.annotatedRetained (stemOf l ++ ".jpeg") ∈ ev) ∧
    (stemOf l ++ ".webp" ∉ s.annotatedFiles → stemOf l ++ ".jpg" ∉ s.annotatedFiles →
      stemOf l ++ ".jpeg" ∉ s.annotatedFiles → stemOf l ++ ".png" ∈ s.annotatedFiles →
      Event.annotatedRetained (stemOf l ++ ".png") ∈ ev) ∧
    (∀ (ls : List String) (acc tr : List Event) (s3 : FSState),
      processLabels nf ls s (acc : List Event) = .ok (tr, s3) →
      s3.annotatedFiles = s.annotatedFiles) := by
  have hann := processLabel_snd_annotatedFiles nf s l ev s2 hp
  have hnda := processLabel_no_deletedAnnotated nf s l ev s2 hp
  rw [processLabel_valid nf s l g it hg hit] at hp
  injection hp with hpair
  injection hpair with h1 h2
  have hvann : (videoStep it g.loc (imageStep nf s (stemOf l)).2
      (stemOf l)).2.annotatedFiles = s.annotatedFiles := by
    rw [videoStep_snd_annotatedFiles, imageStep_snd_annotatedFiles]
  have hmemRet : ∀ f, annotatedStep (videoStep it g.loc (imageStep nf s (stemOf l)).2
        (stemOf l)).2 (stemOf l) = [Event.annotatedRetained f] →
      Event.annotatedRetained f ∈ ev := by
    intro f hf
    rw [← h1]
    refine List.mem_append.mpr (Or.inr (List.mem_append.mpr (Or.inr
      (List.mem_append.mpr (Or.inl ?_)))))
    rw [hf]
    simp
  refine ⟨hann, ?_, hnda, ?_, ?_, ?_, ?_, ?_⟩
  · intro n hn
    rw [← h2] at hn
    have hn2 : n ∈ (videoStep it g.loc (imageStep nf s (stemOf l)).2
        (stemOf l)).2.outputFiles := hn
    rcases videoStep_outputFiles_mem it g.loc ((imageStep nf s (stemOf l)).2)
        (stemOf l) n hn2 with hcase | hcase
    · rcases imageStep_outputFiles_mem nf s (stemOf l) n hcase with hcase2 | hcase2
      · exact Or.inl hcase2
      · exact Or.inr (Or.inl hcase2)
    · rw [imageStep_snd_videoFiles] at hcase
      exact Or.inr (Or.inr hcase)
  · intro h0
    exact hmemRet _ (annotatedStep_webp _ _ (hvann ▸ h0))
  · intro h0 h1j
    exact hmemRet _ (annotatedStep_jpg _ _ (by rw [hvann]; exact h0) (hvann ▸ h1j))
  · intro h0 h1j h2j
    exact hmemRet _ (annotatedStep_jpeg _ _ (by rw [hvann]; exact h0)
      (by rw [hvann]; exact h1j) (hvann ▸ h2j))
  · intro h0 h1j h2j h3p
    exact hmemRet _ (annotatedStep_png _ _ (by rw [hvann]; exact h0)
      (by rw [hvann]; exact h1j) (by rw [hvann]; exact h2j) (hvann ▸ h3p))
  · intro ls acc tr s3 hok
    exact processLabels_annotatedFiles nf ls s acc tr s3 hok

end DetectWrapper

namespace DetectWrapper

/-- Witness for C1: a clip exactly 40 seconds after the image is selected,
one 65 seconds after is not. -/
theorem video_correlation_window_witness :
    ("01-15-2024_14.30.40_Backyard.mkv" ∈ matchingVideos ⟨1, 15, 2024, 14, 30, 0⟩
        ['B', 'a', 'c', 'k', 'y', 'a', 'r', 'd']
        ["01-15-2024_14.30.40_Backyard.mkv", "01-15-2024_14.31.05_Backyard.mkv"]) ∧
    ("01-15-2024_14.31.05_Backyard.mkv" ∉ matchingVideos ⟨1, 15, 2024, 14, 30, 0⟩
        ['B', 'a', 'c', 'k', 'y', 'a', 'r', 'd']
        ["01-15-2024_14.30.40_Backyard.mkv", "01-15-2024_14.31.05_Backyard.mkv"]) :=
  ⟨((video_correlation_window
      ⟨[], ["01-15-2024_14.30.40_Backyard.mkv", "01-15-2024_14.31.05_Backyard.mkv"], true,
       ["01-15-2024_14.30.00_Backyard.txt"], [], []⟩
      (fun _ => false) "01-15-2024_14.30.00_Backyard.txt"
      ⟨['0', '1'], ['1', '5'], ['2', '0', '2', '4'], ['1', '4'], ['3', '0'], ['0', '0'],
       ['B', 'a', 'c', 'k', 'y', 'a', 'r', 'd'], []⟩
      ⟨1, 15, 2024, 14, 30, 0⟩ (by decide) (by decide)
      "01-15-2024_14.30.40_Backyard.mkv" (by decide) (by decide)
      ⟨['0', '1'], ['1', '5'], ['2', '0', '2', '4'], ['1', '4'], ['3', '0'], ['4', '0'],
       ['B', 'a', 'c', 'k', 'y', 'a', 'r', 'd'], []⟩ (by decide)
      ⟨1, 15, 2024, 14, 30, 40⟩ (by decide)).1).mpr (by decide),
   by decide⟩

/-- Witness for C2 with an absent labels directory. -/
theorem empty_labels_cleanup_witness :
    ∃ ev s2, runWrapper 0 (fun _ => false)
        ⟨["a.webp"], ["b.mkv"], false, [], ["ann.jpg"], []⟩ = .ok (0, ev, s2) ∧
      (∀ n ∈ ["a.webp"], endsWithChars n.data ".webp".data = true → n ∉ s2.imageFiles) ∧
      (∀ n ∈ ["b.mkv"], endsWithChars n.data ".mkv".data = true → n ∉ s2.videoFiles) ∧
      (∀ n ∈ labelsOf ⟨["a.webp"], ["b.mkv"], false, [], ["ann.jpg"], []⟩,
        endsWithChars n.data ".txt".data = true → n ∉ s2.labelFiles) ∧
      (∀ n ∈ ["ann.jpg"], n.data.any (fun c => c == '.') = true → n ∉ s2.annotatedFiles) ∧
      (∀ e ∈ ev, (∃ n, e = Event.deletedImage n) ∨ (∃ n, e = Event.deletedVideo n) ∨
        (∃ n, e = Event.deletedLabel n) ∨ (∃ n, e = Event.deletedAnnotated n)) :=
  empty_labels_cleanup ⟨["a.webp"], ["b.mkv"], false, [], ["ann.jpg"], []⟩
    (fun _ => false) (Or.inl rfl)

/-- Witness for C3: a safe label is processed to completion and deleted even
though every notification call fails. -/
theorem label_deleted_last_witness :
    ∃ tr s2, processLabels (fun _ => true) ["01-15-2024_14.30.00_Backyard.txt"]
        ⟨["01-15-2024_14.30.00_Backyard.webp"], [], true,
         ["01-15-2024_14.30.00_Backyard.txt"], [], []⟩ [] = .ok (tr, s2) ∧
      ∀ l ∈ ["01-15-2024_14.30.00_Backyard.txt"], Event.deletedLabel l ∈ tr :=
  (label_deleted_last ⟨["01-15-2024_14.30.00_Backyard.webp"], [], true,
      ["01-15-2024_14.30.00_Backyard.txt"], [], []⟩ (fun _ => true) (fun _ => false)).2.2
    ["01-15-2024_14.30.00_Backyard.txt"] [] (by decide)

/-- Witness for C4 on a label whose stem has no timestamp block. -/
theorem malformed_label_deleted_witness :
    processLabel (fun _ => false) ⟨["a.webp"], [], true, ["garbage.txt"], [], []⟩
        "garbage.txt" =
      some ([Event.deletedLabel "garbage.txt"],
            ⟨["a.webp"], [], true, [], [], []⟩) :=
  (malformed_label_deleted ⟨["a.webp"], [], true, ["garbage.txt"], [], []⟩
    (fun _ => false) "garbage.txt" (by decide)).1

/-- Witness for C5: with the image present and the call succeeding, the
notification directly follows the move and carries the destination path. -/
theorem notification_after_image_move_witness :
    ∃ evr s2, processLabel (fun _ => false)
        ⟨["01-15-2024_14.30.00_Backyard.webp"], [], true,
         ["01-15-2024_14.30.00_Backyard.txt"], [], []⟩
        "01-15-2024_14.30.00_Backyard.txt" =
      some (Event.movedImage (stemOf "01-15-2024_14.30.00_Backyard.txt" ++ ".webp")
            :: Event.notified pushover_token pushover_user pushover_message
                 (output_dir ++ "/" ++ (stemOf "01-15-2024_14.30.00_Backyard.txt" ++ ".webp"))
                 pushover_url :: evr, s2) ∧
      stemOf "01-15-2024_14.30.00_Backyard.txt" ++ ".webp" ∈ s2.outputFiles :=
  (notification_after_image_move
      ⟨["01-15-2024_14.30.00_Backyard.webp"], [], true,
       ["01-15-2024_14.30.00_Backyard.txt"], [], []⟩
      (fun _ => false) "01-15-2024_14.30.00_Backyard.txt"
      ⟨['0', '1'], ['1', '5'], ['2', '0', '2', '4'], ['1', '4'], ['3', '0'], ['0', '0'],
       ['B', 'a', 'c', 'k', 'y', 'a', 'r', 'd'], []⟩
      ⟨1, 15, 2024, 14, 30, 0⟩ (by decide) (by decide)).1 (by decide) rfl

/-- Witness for C6: a non-zero detector return code exits 1 untouched, and
the cleanup path exits 0. -/
theorem exit_code_policy_witness :
    runWrapper 3 (fun _ => false) ⟨[], [], true, ["x.txt"], [], []⟩ =
      .ok (1, [], ⟨[], [], true, ["x.txt"], [], []⟩) ∧
    exitStatus (runWrapper 0 (fun _ => false) ⟨["a.webp"], [], false, [], [], []⟩) = 0 :=
  ⟨(exit_code_policy 3 (fun _ => false) ⟨[], [], true, ["x.txt"], [], []⟩).1 (by decide),
   (exit_code_policy 0 (fun _ => false) ⟨["a.webp"], [], false, [], [], []⟩).2.1 rfl
     (Or.inl rfl)⟩

/-- Witness for C7 at a concrete Capture Filename. -/
theorem capture_filename_roundtrip_witness :
    ∃ g2, reMatchStem (formatStem ⟨1, 15, 2024, 14, 30, 0⟩
        ['B', 'a', 'c', 'k', 'y', 'a', 'r', 'd']) = some g2 ∧
      strptimeFields g2 = some ⟨1, 15, 2024, 14, 30, 0⟩ ∧
      g2.loc = ['B', 'a', 'c', 'k', 'y', 'a', 'r', 'd'] ∧ g2.rest = [] :=
  capture_filename_roundtrip ("01-15-2024_14.30.00_Backyard".data)
    ⟨['0', '1'], ['1', '5'], ['2', '0', '2', '4'], ['1', '4'], ['3', '0'], ['0', '0'],
     ['B', 'a', 'c', 'k', 'y', 'a', 'r', 'd'], []⟩
    ⟨1, 15, 2024, 14, 30, 0⟩ (by decide) (by decide)

/-- Witness for C8: the location tag "Back yard" matches with only "Back"
captured and " yard" left over. -/
theorem pattern_matches_start_only_witness :
    (reMatchStem (formatStem ⟨1, 15, 2024, 14, 30, 0⟩ ['B', 'a', 'c', 'k'] ++
        [' ', 'y', 'a', 'r', 'd'])).isSome = true ∧
    ((∀ c, ([' ', 'y', 'a', 'r', 'd'] : List Char).head? = some c → c.isAlpha = false) →
      ∃ g, reMatchStem (formatStem ⟨1, 15, 2024, 14, 30, 0⟩ ['B', 'a', 'c', 'k'] ++
          [' ', 'y', 'a', 'r', 'd']) = some g ∧
        strptimeFields g = some ⟨1, 15, 2024, 14, 30, 0⟩ ∧
        g.loc = ['B', 'a', 'c', 'k'] ∧ g.rest = [' ', 'y', 'a', 'r', 'd']) :=
  pattern_matches_start_only ⟨1, 15, 2024, 14, 30, 0⟩ ['B', 'a', 'c', 'k']
    [' ', 'y', 'a', 'r', 'd'] (by decide) (by decide) (by decide) (by decide) (by decide)
    (by decide) (by decide) (by decide) (by decide) (by decide) (by decide)

/-- Witness for C9: with only the jpg annotated counterpart present, it is
the one retained, in place. -/
theorem annotated_image_retained_witness :
    Event.annotatedRetained ("01-15-2024_14.30.00_Backyard" ++ ".jpg") ∈
      ([Event.loggedImageMissing "01-15-2024_14.30.00_Backyard",
        Event.loggedNoVideos "01-15-2024_14.30.00_Backyard",
        Event.annotatedRetained "01-15-2024_14.30.00_Backyard.jpg",
        Event.deletedLabel "01-15-2024_14.30.00_Backyard.txt"] : List Event) :=
  (annotated_image_retained
      ⟨[], [], true, ["01-15-2024_14.30.00_Backyard.txt"],
       ["01-15-2024_14.30.00_Backyard.jpg"], []⟩
      (fun _ => false) "01-15-2024_14.30.00_Backyard.txt"
      ⟨['0', '1'], ['1', '5'], ['2', '0', '2', '4'], ['1', '4'], ['3', '0'], ['0', '0'],
       ['B', 'a', 'c', 'k', 'y', 'a', 'r', 'd'], []⟩
      ⟨1, 15, 2024, 14, 30, 0⟩
      [Event.loggedImageMissing "01-15-2024_14.30.00_Backyard",
       Event.loggedNoVideos "01-15-2024_14.30.00_Backyard",
       Event.annotatedRetained "01-15-2024_14.30.00_Backyard.jpg",
       Event.deletedLabel "01-15-2024_14.30.00_Backyard.txt"]
      ⟨[], [], true, [], ["01-15-2024_14.30.00_Backyard.jpg"], []⟩
      (by decide) (by decide) (by decide)).2.2.2.2.1 (by decide) (by decide)

/-- Witness for C10: a video stem naming month 13 parses against the pattern
but is skipped, while label processing is unaffected by it. -/
theorem invalid_timestamp_guard_witness :
    "13-40-2024_25.61.61_Porch.mkv" ∉ matchingVideos ⟨1, 1, 2024, 0, 0, 0⟩
        ['P', 'o', 'r', 'c', 'h']
        (⟨[], ["13-40-2024_25.61.61_Porch.mkv"], true,
          ["01-01-2024_00.00.00_Porch.txt"], [], []⟩ : FSState).videoFiles ∧
    (∀ g it2, reMatchStem (stemOf "01-01-2024_00.00.00_Porch.txt").data = some g →
      strptimeFields g = some it2 →
      (processLabel (fun _ => false) ⟨[], ["13-40-2024_25.61.61_Porch.mkv"], true,
        ["01-01-2024_00.00.00_Porch.txt"], [], []⟩
        "01-01-2024_00.00.00_Porch.txt").isSome = true) ∧
    (∀ g, reMatchStem (stemOf "01-01-2024_00.00.00_Porch.txt").data = some g →
      strptimeFields g = none →
      processLabel (fun _ => false) ⟨[], ["13-40-2024_25.61.61_Porch.mkv"], true,
        ["01-01-2024_00.00.00_Porch.txt"], [], []⟩
        "01-01-2024_00.00.00_Porch.txt" = none) :=
  invalid_timestamp_guard
    ⟨[], ["13-40-2024_25.61.61_Porch.mkv"], true, ["01-01-2024_00.00.00_Porch.txt"], [], []⟩
    (fun _ => false) "01-01-2024_00.00.00_Porch.txt" ⟨1, 1, 2024, 0, 0, 0⟩
    ['P', 'o', 'r', 'c', 'h'] "13-40-2024_25.61.61_Porch.mkv"
    ⟨['1', '3'], ['4', '0'], ['2', '0', '2', '4'], ['2', '5'], ['6', '1'], ['6', '1'],
     ['P', 'o', 'r', 'c', 'h'], []⟩ (by decide) (by decide)

end DetectWrapper
